import Mathlib

/-!
Verification of the visitor-management backend (vms-backend/server.js) and the
timestamp-normalization logic of the browser client (src/App.jsx).

The embedding models:
* the `POST /visitors` handler (`checkIn` / `createVisitor`),
* the `POST /visitors/:id/checkout` handler (`checkOut`),
* the `GET /visitors` handler (`listVisitors`; the SQL
  `SELECT * FROM visitors WHERE checkin_time BETWEEN ? AND ? ORDER BY checkin_time DESC`
  is modelled as an inclusive-bounds filter followed by a sort that is
  descending on `checkin_time`),
* the numeric branch of the client's `loadVisitors` timestamp normalization
  (`normalizeNum`),
* the `GET /reports/daily` and `GET /reports/monthly` handlers
  (`dailyCounts`, `monthlyCounts`).

Conventions of the embedding:
* JavaScript numbers that hold timestamps are modelled as `Int`
  (all the code paths in scope use integer epoch values);
* `uuidv4()` is modelled as a supply of fresh identifiers (`Nat` drawn from a
  counter in the trace model); the uuid library's uniqueness guarantee becomes
  freshness of the counter;
* `jwt.verify` is an external collaborator: its outcome enters `checkIn` as a
  `Option TokenStatus` value (`none` = no `Bearer` header, `some .invalid` =
  header present but verification threw, `some (.valid uid)` = verified);
* photo storage (multer / base64 decoding) is an external collaborator whose
  result enters as an optional public path (`Option String`);
* the server's clock `Math.floor(Date.now() / 1000)` enters as an explicit
  `now : Int` parameter;
* calendar arithmetic of the JavaScript `Date` object is modelled for a server
  whose local time zone is UTC: `new Date(y, m, d).getTime() / 86400000` is the
  proleptic-Gregorian day number given by `daysFromCivil` (month and day
  overflow normalized exactly as ECMAScript `MakeDay` does), and
  `toISOString().slice(0, 10)` is `isoDate ∘ civilFromDays`.
-/

namespace VMS

/-- A row of the `visitors` table (see migrations.sql).  `checkout_time` is a
nullable column, absent from the INSERT in `POST /visitors`, hence `Option`. -/
structure Visitor where
  id : Nat
  name : String
  phone : String := ""
  address : String := ""
  purpose : String := ""
  company : String := ""
  personToMeet : String := ""
  photo : String := ""
  checkin_time : Int
  checkout_time : Option Int := none
  created_by : Option String := none
deriving Repr, DecidableEq

/-- The request body of `POST /visitors` as destructured by the handler.
A missing field is `none`; JavaScript falsiness of a string is `= ""` or
absence, falsiness of a number is `= 0` or absence. -/
structure CreateReq where
  name : Option String := none
  phone : Option String := none
  address : Option String := none
  purpose : Option String := none
  company : Option String := none
  personToMeet : Option String := none
  checkin_time : Option Int := none
deriving Repr, DecidableEq

/-- Outcome of `jwt.verify` on a presented `Bearer` token. -/
inductive TokenStatus where
  | valid (uid : String)
  | invalid
deriving Repr, DecidableEq

/-- The `POST /visitors` handler after photo storage has produced `photoUrl`.
Mirrors server.js lines 251-292: reject falsy `name`; `checkin` is the
client-supplied `checkin_time` when truthy, otherwise the server clock;
`created_by` comes from a successfully verified token (verification failure is
caught and ignored); the INSERT writes `checkout_time` as NULL. -/
def checkIn (req : CreateReq) (auth : Option TokenStatus) (photoUrl : Option String)
    (now : Int) (newId : Nat) : Except String Visitor :=
  if req.name.getD "" = "" then .error "name required"
  else
    .ok { id := newId
          name := req.name.getD ""
          phone := req.phone.getD ""
          address := req.address.getD ""
          purpose := req.purpose.getD ""
          company := req.company.getD ""
          personToMeet := req.personToMeet.getD ""
          photo := photoUrl.getD ""
          checkin_time :=
            match req.checkin_time with
            | some t => if t = 0 then now else t
            | none => now
          checkout_time := none
          created_by :=
            match auth with
            | some (.valid uid) => some uid
            | _ => none }

/-- `POST /visitors` at the level of the persisted store: an accepted request
appends the new row, a rejected one leaves the table untouched. -/
def createVisitor (store : List Visitor) (req : CreateReq) (auth : Option TokenStatus)
    (photoUrl : Option String) (now : Int) (newId : Nat) :
    List Visitor × Except String Visitor :=
  match checkIn req auth photoUrl now newId with
  | .ok v => (store ++ [v], .ok v)
  | .error e => (store, .error e)

/-- The JSON body of the (unconditional) 200 response of
`POST /visitors/:id/checkout`. -/
structure CheckoutResp where
  id : Nat
  checkout_time : Int
deriving Repr, DecidableEq

/-- The `POST /visitors/:id/checkout` handler (server.js lines 300-310):
`UPDATE visitors SET checkout_time = ? WHERE id = ?` followed by
`res.json({ id, checkout_time })`.  There is no existence check and no error
path: the handler always responds 200. -/
def checkOut (store : List Visitor) (id : Nat) (now : Int) :
    List Visitor × CheckoutResp :=
  (store.map fun v => if v.id = id then { v with checkout_time := some now } else v,
   { id := id, checkout_time := now })

/-- SQL `t BETWEEN a AND b` (inclusive on both ends). -/
def inRange (a b t : Int) : Bool := a ≤ t && t ≤ b

/-- Comparison used by `ORDER BY checkin_time DESC`. -/
def vGE (a b : Visitor) : Prop := b.checkin_time ≤ a.checkin_time

instance : DecidableRel vGE := fun a b =>
  inferInstanceAs (Decidable (b.checkin_time ≤ a.checkin_time))

instance : IsTotal Visitor vGE := ⟨fun a b => le_total b.checkin_time a.checkin_time⟩

instance : IsTrans Visitor vGE := ⟨fun _ _ _ h1 h2 => le_trans h2 h1⟩

/-- The `GET /visitors` handler (server.js lines 313-332): bounds default to
`0` and the current epoch second, the stored (raw) `checkin_time` is compared
with SQL `BETWEEN`, and rows come back ordered by `checkin_time` descending.
The photo-URL absolutization of the response is dropped: it rewrites only the
`photo` field and affects neither selection nor order. -/
def listVisitors (store : List Visitor) (fromQ toQ : Option Int) (now : Int) :
    List Visitor :=
  List.insertionSort vGE
    (store.filter fun v => inRange (fromQ.getD 0) (toQ.getD now) v.checkin_time)

/-- Numeric branch of the client's `loadVisitors` normalization
(src/App.jsx lines 464-489): a number above 10,000,000,000 is taken to be
milliseconds and floor-divided by 1000, anything else is returned unchanged. -/
def normalizeNum (t : Int) : Int := if 10000000000 < t then t.fdiv 1000 else t

/-- Requests arriving at the visitor store, for the lifecycle trace model. -/
inductive Op where
  | create (req : CreateReq) (auth : Option TokenStatus) (photoUrl : Option String) (now : Int)
  | checkout (id : Nat) (now : Int)
deriving Repr, DecidableEq

/-- Persistent state: the `visitors` table plus the fresh-id supply that
models `uuidv4()`. -/
structure Sys where
  store : List Visitor
  nextId : Nat
deriving Repr, DecidableEq

/-- One request against the store. -/
def stepOp (s : Sys) : Op → Sys
  | .create req auth photoUrl now =>
    match checkIn req auth photoUrl now s.nextId with
    | .ok v => { store := s.store ++ [v], nextId := s.nextId + 1 }
    | .error _ => s
  | .checkout id now => { s with store := (checkOut s.store id now).1 }

/-- Run a request trace from the empty table. -/
def runOps (ops : List Op) : Sys := ops.foldl stepOp { store := [], nextId := 0 }

/-- The character of a decimal digit (`0 ≤ n ≤ 9`). -/
def digitChar (n : Nat) : Char := Char.ofNat (48 + n)

/-- Fuel-driven most-significant-first decimal digits; with fuel at least `n`
this is the usual digit expansion (kept structural so the kernel can reduce
concrete instances). -/
def natDigitsAux : Nat → Nat → List Char
  | 0, n => [digitChar n]
  | fuel + 1, n =>
    if n < 10 then [digitChar n]
    else natDigitsAux fuel (n / 10) ++ [digitChar (n % 10)]

/-- Decimal digits of `n`, most significant first. -/
def natDigits (n : Nat) : List Char := natDigitsAux n n

/-- Decimal numeral of `n`, as produced by JavaScript `String(n)` for a
non-negative integer. -/
def natStr (n : Nat) : String := ⟨natDigits n⟩

/-- JavaScript `s.padStart(k, "0")`. -/
def padZeros (k : Nat) (s : String) : String :=
  ⟨List.replicate (k - s.data.length) '0' ++ s.data⟩

/-- The `pad` helper of server.js: `String(n).padStart(2, "0")`. -/
def pad2 (n : Nat) : String := padZeros 2 (natStr n)

/-- Four-digit zero-padded year, as in `Date.prototype.toISOString` for years
0 to 9999. -/
def pad4 (n : Nat) : String := padZeros 4 (natStr n)

/-- The `YYYY-MM` label of a linear month count (`k = 12 * year + monthIndex`,
month index 0-based), i.e. `String(year) + "-" + pad(monthIndex + 1)`. -/
def labelN (k : Nat) : String := natStr (k / 12) ++ "-" ++ pad2 (k % 12 + 1)

/-- Day number (days since 1970-01-01) of the first day of month `m` of year
`y`, with `m` 1-based and arbitrary (out-of-range months roll the year over
exactly as ECMAScript `MakeDay` / Howard Hinnant's `days_from_civil` do). -/
def monthAnchorDays (y m : Int) : Int :=
  let ym := 12 * y + (m - 1)
  let yN := ym.fdiv 12
  let mN := ym.emod 12 + 1
  let y1 := if mN ≤ 2 then yN - 1 else yN
  let era := y1.fdiv 400
  let yoe := y1 - era * 400
  let mp := if 2 < mN then mN - 3 else mN + 9
  let doy := (153 * mp + 2).fdiv 5
  let doe := yoe * 365 + yoe.fdiv 4 - yoe.fdiv 100 + doy
  era * 146097 + doe - 719468

/-- Day number of civil date `(y, m, d)` (month 1-based); day overflow is
linear, as in ECMAScript `MakeDay`. -/
def daysFromCivil (y m d : Int) : Int := monthAnchorDays y m + (d - 1)

/-- Civil date `(year, month, day)` (month 1-based) of a day number
(Howard Hinnant's `civil_from_days`, the computation inside the JavaScript
`Date` object). -/
def civilFromDays (n : Int) : Int × Int × Int :=
  let z := n + 719468
  let era := z.fdiv 146097
  let doe := z - era * 146097
  let yoe := (doe - doe.fdiv 1460 + doe.fdiv 36524 - doe.fdiv 146096).fdiv 365
  let y := yoe + era * 400
  let doy := doe - (365 * yoe + yoe.fdiv 4 - yoe.fdiv 100)
  let mp := (5 * doy + 2).fdiv 153
  let d := doy - (153 * mp + 2).fdiv 5 + 1
  let m := if mp < 10 then mp + 3 else mp - 9
  (if m ≤ 2 then y + 1 else y, m, d)

/-- `toISOString().slice(0, 10)` of a UTC midnight: `YYYY-MM-DD`. -/
def isoDate (c : Int × Int × Int) : String :=
  pad4 c.1.toNat ++ "-" ++ pad2 c.2.1.toNat ++ "-" ++ pad2 c.2.2.toNat

/-- `Math.min(30, Math.max(1, parseInt(req.query.days || "7", 10)))`. -/
def clampDays (q : Option Int) : Int := min 30 (max 1 (q.getD 7))

/-- `Math.min(24, Math.max(1, parseInt(req.query.months || "6", 10)))`. -/
def clampMonths (q : Option Int) : Int := min 24 (max 1 (q.getD 6))

/-- One element of the `GET /reports/daily` response. -/
structure DayEntry where
  date : String
  count : Nat
deriving Repr, DecidableEq

/-- One element of the `GET /reports/monthly` response. -/
structure MonthEntry where
  month : String
  count : Nat
deriving Repr, DecidableEq

/-- `SELECT COUNT(*) FROM visitors WHERE checkin_time BETWEEN ? AND ?` for the
calendar day with day number `dn` (`[00:00:00, 23:59:59]` inclusive). -/
def dayWindowCount (store : List Visitor) (dn : Int) : Nat :=
  (store.filter fun v => inRange (dn * 86400) (dn * 86400 + 86399) v.checkin_time).length

/-- The same COUNT for the calendar month with linear month count `lm`
(from the first second of the month to the last second of its final day,
computed as in server.js via `new Date(y, m + 1, 0, 23, 59, 59)`). -/
def monthWindowCount (store : List Visitor) (lm : Int) : Nat :=
  (store.filter fun v =>
    inRange (daysFromCivil (lm.fdiv 12) (lm.emod 12 + 1) 1 * 86400)
      (daysFromCivil (lm.fdiv 12) (lm.emod 12 + 2) 0 * 86400 + 86399)
      v.checkin_time).length

/-- The `GET /reports/daily` handler (server.js lines 338-355).  `(y, m, d)`
is the server's current civil date with `m` the 0-based `getMonth()` index;
iteration `i = days - 1, …, 0` of the source loop is index `j = days - 1 - i`
here. -/
def dailyCounts (store : List Visitor) (daysQ : Option Int) (y m d : Int) :
    List DayEntry :=
  (List.range (clampDays daysQ).toNat).map fun (j : Nat) =>
    let dn := daysFromCivil y (m + 1) (d - (clampDays daysQ - 1 - (j : Int)))
    { date := isoDate (civilFromDays dn)
      count := dayWindowCount store dn }

/-- The `GET /reports/monthly` handler (server.js lines 357-375).  `(y, m)` is
the server's current year and 0-based month index. -/
def monthlyCounts (store : List Visitor) (monthsQ : Option Int) (y m : Int) :
    List MonthEntry :=
  (List.range (clampMonths monthsQ).toNat).map fun (j : Nat) =>
    let ym := 12 * y + (m - (clampMonths monthsQ - 1 - (j : Int)))
    { month := natStr (ym.fdiv 12).toNat ++ "-" ++ pad2 (ym.emod 12 + 1).toNat
      count := monthWindowCount store ym }

/-- Claim C1, counterexample: a request for "Alice" carrying
`checkin_time = 1700000000000` is persisted with exactly that client-supplied
value and not with the server clock (999), so the client-supplied check-in
time is not ignored. -/
theorem checkin_client_time_persisted_cex :
    (checkIn { name := some "Alice", checkin_time := some 1700000000000 }
        none none 999 0).toOption.map Visitor.checkin_time = some 1700000000000 ∧
    (1700000000000 : Int) ≠ 999 := by
  decide

/-- Claim C1, amended: `check_in` persists the client-supplied `checkin_time`
whenever the request carries a truthy (non-zero) one; the current server time
is used only when the field is absent or zero. -/
theorem checkin_time_selection (req : CreateReq) (auth : Option TokenStatus)
    (photoUrl : Option String) (now : Int) (newId : Nat) (v : Visitor)
    (h : checkIn req auth photoUrl now newId = .ok v) :
    (∀ t, req.checkin_time = some t → t ≠ 0 → v.checkin_time = t) ∧
    ((req.checkin_time = none ∨ req.checkin_time = some 0) → v.checkin_time = now) := by
  unfold checkIn at h
  split at h
  · simp at h
  · rw [Except.ok.injEq] at h
    subst h
    constructor
    · intro t ht ht0
      simp [ht, ht0]
    · rintro (ht | ht) <;> simp [ht]

/-- Witness for `checkin_time_selection` at a concrete request. -/
theorem checkin_time_selection_witness :
    checkIn { name := some "A", checkin_time := some 5 } none none 100 0 =
      .ok { id := 0, name := "A", checkin_time := 5 } ∧
    ({ id := 0, name := "A", checkin_time := 5 } : Visitor).checkin_time = 5 :=
  ⟨by rfl,
   (checkin_time_selection { name := some "A", checkin_time := some 5 } none none 100 0
       { id := 0, name := "A", checkin_time := 5 } (by rfl)).1 5 rfl (by decide)⟩

/-- Claim C2, counterexample: id 7 identifies no visitor in the empty store,
yet `checkOut` responds with a normal 200 checkout body (there is no
`NotFoundError` path in the handler at all); the store is indeed unchanged. -/
theorem checkout_unknown_id_cex :
    checkOut [] 7 100 = ([], { id := 7, checkout_time := 100 }) := by
  decide

/-- Claim C2, amended: `check_out` on an id that identifies no visitor
succeeds, responding 200 with `{id, checkout_time}`, and leaves the store
unchanged; no error is raised. -/
theorem checkout_unknown_id_succeeds (store : List Visitor) (id : Nat) (now : Int)
    (h : ∀ v ∈ store, v.id ≠ id) :
    checkOut store id now = (store, { id := id, checkout_time := now }) := by
  unfold checkOut
  have hmap : (store.map fun v =>
      if v.id = id then { v with checkout_time := some now } else v) = store := by
    induction store with
    | nil => rfl
    | cons a l ih =>
      rw [List.map_cons, if_neg (h a (List.mem_cons_self a l)),
        ih fun v hv => h v (List.mem_cons_of_mem a hv)]
  rw [hmap]

/-- Witness for `checkout_unknown_id_succeeds` at a concrete store. -/
theorem checkout_unknown_id_succeeds_witness :
    checkOut [{ id := 3, name := "B", checkin_time := 50 }] 7 100 =
      ([{ id := 3, name := "B", checkin_time := 50 }], { id := 7, checkout_time := 100 }) :=
  checkout_unknown_id_succeeds [{ id := 3, name := "B", checkin_time := 50 }] 7 100 (by decide)

/-- Claim C3, counterexample: the whitespace-only name " " is truthy in
JavaScript, so the handler accepts it: the visitor is persisted with
`name = " "` instead of failing with a validation error. -/
theorem checkin_whitespace_name_cex :
    (createVisitor [] { name := some " " } none none 100 0).1 =
      [{ id := 0, name := " ", checkin_time := 100 }] ∧
    (checkIn { name := some " " } none none 100 0).toOption.map Visitor.name = some " " := by
  decide

/-- Claim C3, amended: `check_in` fails with the validation error (persisting
nothing) exactly when `name` is absent or the empty string; any non-empty
name, including whitespace-only ones, is accepted and persisted as given. -/
theorem checkin_name_validation (store : List Visitor) (req : CreateReq)
    (auth : Option TokenStatus) (photoUrl : Option String) (now : Int) (newId : Nat) :
    (req.name.getD "" = "" →
      createVisitor store req auth photoUrl now newId = (store, .error "name required")) ∧
    (∀ n, req.name = some n → n ≠ "" →
      ∃ v, createVisitor store req auth photoUrl now newId = (store ++ [v], .ok v) ∧
        v.name = n) := by
  constructor
  · intro h
    unfold createVisitor checkIn
    rw [if_pos h]
  · intro n hn hne
    have hcond : req.name.getD "" = n := by rw [hn]; rfl
    unfold createVisitor checkIn
    rw [hcond, if_neg hne]
    exact ⟨_, rfl, rfl⟩

/-- Witness for `checkin_name_validation`: an absent name is rejected with the
store untouched, and the concrete name "C" is accepted and persisted. -/
theorem checkin_name_validation_witness :
    createVisitor [] { name := none } none none 100 0 = ([], .error "name required") ∧
    (createVisitor [] { name := some "C" } none none 100 0).2.toOption.map Visitor.name =
      some "C" := by
  refine ⟨(checkin_name_validation [] { name := none } none none 100 0).1 rfl, ?_⟩
  obtain ⟨v, hv, hn⟩ :=
    (checkin_name_validation [] { name := some "C" } none none 100 0).2 "C" rfl (by decide)
  rw [hv]
  show some v.name = some "C"
  rw [hn]

/-- Claim C4: the numeric timestamp normalization of `loadVisitors` returns
`t` unchanged when `t ≤ 10000000000` and `⌊t / 1000⌋` when
`t > 10000000000`. -/
theorem normalize_timestamp_spec (t : Int) :
    (t ≤ 10000000000 → normalizeNum t = t) ∧
    (10000000000 < t → normalizeNum t = t.fdiv 1000) := by
  constructor
  · intro h
    unfold normalizeNum
    rw [if_neg (by omega)]
  · intro h
    unfold normalizeNum
    rw [if_pos h]

/-- Witness for `normalize_timestamp_spec` on an epoch-seconds value and on a
milliseconds value. -/
theorem normalize_timestamp_spec_witness :
    normalizeNum 1700000000 = 1700000000 ∧ normalizeNum 1700000000000 = 1700000000 :=
  ⟨(normalize_timestamp_spec 1700000000).1 (by norm_num), by
    rw [(normalize_timestamp_spec 1700000000000).2 (by norm_num)]
    decide⟩

/-- Claim C5, counterexample: a visitor stored with a millisecond-scale
`checkin_time` has a normalized check-in time inside the bounds
`[0, 2000000000]`, yet `GET /visitors` with those bounds returns nothing: the
handler compares the raw stored value, not the normalized one. -/
theorem list_normalized_filter_cex :
    listVisitors [{ id := 0, name := "M", checkin_time := 1700000000000 }]
      (some 0) (some 2000000000) 0 = [] ∧
    0 ≤ normalizeNum 1700000000000 ∧ normalizeNum 1700000000000 ≤ 2000000000 := by
  decide

/-- Claim C5, amended: `list(from, to)` returns exactly the visitors whose
raw stored `checkin_time` lies within the inclusive bounds `[from, to]`
(defaulting to `[0, now]`), ordered by `checkin_time` descending. -/
theorem list_raw_filter_sorted (store : List Visitor) (fromQ toQ : Option Int) (now : Int) :
    List.Perm (listVisitors store fromQ toQ now)
      (store.filter fun v => inRange (fromQ.getD 0) (toQ.getD now) v.checkin_time) ∧
    List.Sorted vGE (listVisitors store fromQ toQ now) ∧
    ∀ v, v ∈ listVisitors store fromQ toQ now ↔
      v ∈ store ∧ fromQ.getD 0 ≤ v.checkin_time ∧ v.checkin_time ≤ toQ.getD now := by
  refine ⟨List.perm_insertionSort vGE _, List.sorted_insertionSort vGE _, fun v => ?_⟩
  unfold listVisitors
  rw [List.mem_insertionSort, List.mem_filter]
  simp [inRange, and_assoc]

/-- Witness for `list_raw_filter_sorted`: a stored visitor with an in-bounds
check-in time is returned. -/
theorem list_raw_filter_sorted_witness :
    ({ id := 0, name := "F", checkin_time := 5 } : Visitor) ∈
      listVisitors [{ id := 0, name := "F", checkin_time := 5 }] none none 9 :=
  ((list_raw_filter_sorted [{ id := 0, name := "F", checkin_time := 5 }] none none 9).2.2
      { id := 0, name := "F", checkin_time := 5 }).mpr
    ⟨by decide, by decide, by decide⟩

/-- Claim C6: checkout is not idempotent: on a visitor already carrying a
checkout time, a second `check_out` call still responds 200 and overwrites
`checkout_time` with the later server time. -/
theorem checkout_overwrites (store : List Visitor) (v : Visitor) (id : Nat)
    (t0 now : Int) (hv : v ∈ store) (hid : v.id = id) (hco : v.checkout_time = some t0) :
    (checkOut store id now).2 = { id := id, checkout_time := now } ∧
    { v with checkout_time := some now } ∈ (checkOut store id now).1 := by
  refine ⟨rfl, ?_⟩
  have hm : (if v.id = id then { v with checkout_time := some now } else v) ∈
      (checkOut store id now).1 := List.mem_map_of_mem _ hv
  rwa [if_pos hid] at hm

/-- Witness for `checkout_overwrites`: a visitor checked out at 50 gets its
checkout time overwritten to 100 by a second call. -/
theorem checkout_overwrites_witness :
    (checkOut [{ id := 4, name := "D", checkin_time := 10, checkout_time := some 50 }] 4 100).2 =
      { id := 4, checkout_time := 100 } ∧
    ({ id := 4, name := "D", checkin_time := 10, checkout_time := some 100 } : Visitor) ∈
      (checkOut [{ id := 4, name := "D", checkin_time := 10, checkout_time := some 50 }] 4 100).1 :=
  checkout_overwrites _ { id := 4, name := "D", checkin_time := 10, checkout_time := some 50 }
    4 50 100 (by decide) rfl rfl

/-- A successfully created visitor carries the id drawn from the fresh-id
supply and a NULL `checkout_time`. -/
theorem checkIn_ok_shape (req : CreateReq) (auth : Option TokenStatus)
    (photoUrl : Option String) (now : Int) (newId : Nat) (v : Visitor)
    (h : checkIn req auth photoUrl now newId = .ok v) :
    v.id = newId ∧ v.checkout_time = none := by
  unfold checkIn at h
  split at h
  · simp at h
  · rw [Except.ok.injEq] at h
    subst h
    exact ⟨rfl, rfl⟩

/-- One request preserves the store invariants: ids below the fresh-id
counter, no duplicate ids, and every non-NULL `checkout_time` stems from a
checkout request on that id. -/
theorem stepOp_inv (past : List Op) (s : Sys) (op : Op)
    (h1 : ∀ v ∈ s.store, v.id < s.nextId)
    (h2 : (s.store.map Visitor.id).Nodup)
    (h3 : ∀ v ∈ s.store, v.checkout_time = none ∨
      ∃ t, v.checkout_time = some t ∧ Op.checkout v.id t ∈ past) :
    (∀ v ∈ (stepOp s op).store, v.id < (stepOp s op).nextId) ∧
    ((stepOp s op).store.map Visitor.id).Nodup ∧
    (∀ v ∈ (stepOp s op).store, v.checkout_time = none ∨
      ∃ t, v.checkout_time = some t ∧ Op.checkout v.id t ∈ past ++ [op]) := by
  have weaken : ∀ v : Visitor, (v.checkout_time = none ∨
      ∃ t, v.checkout_time = some t ∧ Op.checkout v.id t ∈ past) →
      v.checkout_time = none ∨
        ∃ t, v.checkout_time = some t ∧ Op.checkout v.id t ∈ past ++ [op] := by
    rintro v (hn | ⟨t, ht, hmem⟩)
    · exact Or.inl hn
    · exact Or.inr ⟨t, ht, List.mem_append_left _ hmem⟩
  cases op with
  | create req auth photoUrl now =>
    cases hc : checkIn req auth photoUrl now s.nextId with
    | error e =>
      simp only [stepOp, hc]
      exact ⟨h1, h2, fun v hv => weaken v (h3 v hv)⟩
    | ok v =>
      obtain ⟨hvid, hvco⟩ := checkIn_ok_shape _ _ _ _ _ _ hc
      simp only [stepOp, hc]
      refine ⟨?_, ?_, ?_⟩
      · intro w hw
        rcases List.mem_append.mp hw with hw | hw
        · exact Nat.lt_succ_of_lt (h1 w hw)
        · rw [List.mem_singleton.mp hw, hvid]
          exact Nat.lt_succ_self _
      · rw [List.map_append, List.nodup_append]
        refine ⟨h2, by simp, ?_⟩
        intro a ha hb
        simp only [List.map_cons, List.map_nil, List.mem_singleton] at hb
        rcases List.mem_map.mp ha with ⟨w, hw, rfl⟩
        have hlt := h1 w hw
        rw [hb, hvid] at hlt
        exact absurd hlt (lt_irrefl _)
      · intro w hw
        rcases List.mem_append.mp hw with hw | hw
        · exact weaken w (h3 w hw)
        · rw [List.mem_singleton.mp hw]
          exact Or.inl hvco
  | checkout id now =>
    have hid : ∀ u : Visitor,
        ((if u.id = id then { u with checkout_time := some now } else u) : Visitor).id = u.id := by
      intro u
      split <;> rfl
    refine ⟨?_, ?_, ?_⟩
    · intro w hw
      rcases List.mem_map.mp hw with ⟨u, hu, rfl⟩
      rw [hid u]
      exact h1 u hu
    · show ((s.store.map _).map Visitor.id).Nodup
      rw [List.map_map]
      have : (Visitor.id ∘ fun u : Visitor =>
          if u.id = id then { u with checkout_time := some now } else u) = Visitor.id := by
        funext u
        exact hid u
      rw [this]
      exact h2
    · intro w hw
      rcases List.mem_map.mp hw with ⟨u, hu, rfl⟩
      by_cases he : u.id = id
      · rw [if_pos he]
        exact Or.inr ⟨now, rfl, by
          rw [show ({ u with checkout_time := some now } : Visitor).id = u.id from rfl, he]
          exact List.mem_append_right _ (List.mem_singleton.mpr rfl)⟩
      · rw [if_neg he]
        exact weaken u (h3 u hu)

/-- The store invariants hold along any run of the trace machine. -/
theorem runOps_inv_aux (ops : List Op) : ∀ (past : List Op) (s : Sys),
    (∀ v ∈ s.store, v.id < s.nextId) →
    (s.store.map Visitor.id).Nodup →
    (∀ v ∈ s.store, v.checkout_time = none ∨
      ∃ t, v.checkout_time = some t ∧ Op.checkout v.id t ∈ past) →
    (∀ v ∈ (ops.foldl stepOp s).store, v.id < (ops.foldl stepOp s).nextId) ∧
    ((ops.foldl stepOp s).store.map Visitor.id).Nodup ∧
    (∀ v ∈ (ops.foldl stepOp s).store, v.checkout_time = none ∨
      ∃ t, v.checkout_time = some t ∧ Op.checkout v.id t ∈ past ++ ops) := by
  induction ops with
  | nil =>
    intro past s a b c
    simpa using ⟨a, b, c⟩
  | cons op ops ih =>
    intro past s a b c
    have step := stepOp_inv past s op a b c
    have h := ih (past ++ [op]) (stepOp s op) step.1 step.2.1 step.2.2
    simpa [List.append_assoc] using h

/-- Claim C7: created visitors carry the freshly drawn id and a NULL
`checkout_time`; ids in the store are pairwise distinct along any trace;
`checkout_time` stays NULL unless the trace contains a checkout request on
that very id, and when it is set it equals (hence is at least) the invocation
time of such a checkout request; and a checkout request on the id of a stored
visitor does set its `checkout_time` to that invocation time. -/
theorem visitor_lifecycle (ops : List Op) :
    (∀ req auth photoUrl now newId v,
      checkIn req auth photoUrl now newId = .ok v →
        v.id = newId ∧ v.checkout_time = none) ∧
    ((runOps ops).store.map Visitor.id).Nodup ∧
    (∀ v ∈ (runOps ops).store, v.checkout_time = none ∨
      ∃ t, v.checkout_time = some t ∧ Op.checkout v.id t ∈ ops) ∧
    (∀ (s : Sys) (id : Nat) (now : Int) (v : Visitor), v ∈ s.store → v.id = id →
      { v with checkout_time := some now } ∈ (stepOp s (.checkout id now)).store) := by
  have base := runOps_inv_aux ops [] { store := [], nextId := 0 }
    (by simp) (by simp) (by simp)
  refine ⟨fun req auth photoUrl now newId v h => checkIn_ok_shape _ _ _ _ _ _ h,
    base.2.1, by simpa using base.2.2, ?_⟩
  intro s id now v hv hid
  have hm : (if v.id = id then { v with checkout_time := some now } else v) ∈
      (stepOp s (.checkout id now)).store := List.mem_map_of_mem _ hv
  rwa [if_pos hid] at hm

/-- Witness for `visitor_lifecycle`: in the two-request trace where "A" is
created and then checked out at time 200, the stored record's checkout time
of 200 is justified by the checkout request in the trace. -/
theorem visitor_lifecycle_witness :
    ({ id := 0, name := "A", checkin_time := 100, checkout_time := some 200 } : Visitor).checkout_time
        = none ∨
    ∃ t, ({ id := 0, name := "A", checkin_time := 100, checkout_time := some 200 } : Visitor).checkout_time
        = some t ∧
      Op.checkout ({ id := 0, name := "A", checkin_time := 100, checkout_time := some 200 } : Visitor).id t ∈
        [Op.create { name := some "A" } none none 100, Op.checkout 0 200] :=
  (visitor_lifecycle [Op.create { name := some "A" } none none 100, Op.checkout 0 200]).2.2.1
    { id := 0, name := "A", checkin_time := 100, checkout_time := some 200 } (by decide)

/-- A decimal digit character is a digit. -/
theorem digitChar_isDigit : ∀ n, n < 10 → (digitChar n).isDigit = true := by decide

/-- Decimal digit characters compare like their digits. -/
theorem digitChar_lt : ∀ a, a < 10 → ∀ b, b < 10 → a < b → digitChar a < digitChar b := by decide

/-- Any fuel renders a single-digit number as that digit. -/
theorem natDigitsAux_small : ∀ (f n : Nat), n < 10 → natDigitsAux f n = [digitChar n] := by
  intro f n h
  cases f with
  | zero => rfl
  | succ f => simp [natDigitsAux, h]

/-- The digit expansion does not depend on the fuel once the fuel covers the
argument. -/
theorem natDigitsAux_stable : ∀ (f1 n f2 : Nat), n ≤ f1 → n ≤ f2 →
    natDigitsAux f1 n = natDigitsAux f2 n := by
  intro f1
  induction f1 with
  | zero =>
    intro n f2 h1 _
    have hn : n = 0 := by omega
    subst hn
    rw [natDigitsAux_small f2 0 (by omega)]
    rfl
  | succ f1 ih =>
    intro n f2 h1 h2
    by_cases h : n < 10
    · rw [natDigitsAux_small _ n h, natDigitsAux_small f2 n h]
    · cases f2 with
      | zero => omega
      | succ f2 =>
        simp only [natDigitsAux, if_neg h]
        congr 1
        exact ih (n / 10) f2 (by omega) (by omega)

/-- Digit expansion of a single-digit number. -/
theorem natDigits_lt10 (n : Nat) (h : n < 10) : natDigits n = [digitChar n] :=
  natDigitsAux_small n n h

/-- Digit expansion of a multi-digit number: leading digits then last digit. -/
theorem natDigits_ge10 (n : Nat) (h : 10 ≤ n) :
    natDigits n = natDigits (n / 10) ++ [digitChar (n % 10)] := by
  obtain ⟨m, rfl⟩ : ∃ m, n = m + 1 := ⟨n - 1, by omega⟩
  show natDigitsAux (m + 1) (m + 1) = _
  simp only [natDigitsAux, if_neg (by omega : ¬m + 1 < 10)]
  congr 1
  exact natDigitsAux_stable m ((m + 1) / 10) ((m + 1) / 10) (by omega) (by omega)

/-- One-digit numbers have a one-character numeral. -/
theorem natDigits_len1 (n : Nat) (h : n ≤ 9) : (natDigits n).length = 1 := by
  rw [natDigits_lt10 n (by omega)]
  rfl

/-- Two-digit numbers have a two-character numeral. -/
theorem natDigits_len2 (n : Nat) (h1 : 10 ≤ n) (h2 : n ≤ 99) : (natDigits n).length = 2 := by
  rw [natDigits_ge10 n h1, List.length_append, natDigits_len1 (n / 10) (by omega)]
  rfl

/-- Three-digit numbers have a three-character numeral. -/
theorem natDigits_len3 (n : Nat) (h1 : 100 ≤ n) (h2 : n ≤ 999) : (natDigits n).length = 3 := by
  rw [natDigits_ge10 n (by omega), List.length_append,
    natDigits_len2 (n / 10) (by omega) (by omega)]
  rfl

/-- Four-digit numbers have a four-character numeral. -/
theorem natDigits_len4 (n : Nat) (h1 : 1000 ≤ n) (h2 : n ≤ 9999) : (natDigits n).length = 4 := by
  rw [natDigits_ge10 n (by omega), List.length_append,
    natDigits_len3 (n / 10) (by omega) (by omega)]
  rfl

/-- Numerals of numbers up to 99 have at most two characters. -/
theorem natDigits_len_le2 (n : Nat) (h : n ≤ 99) : (natDigits n).length ≤ 2 := by
  by_cases h1 : n ≤ 9
  · rw [natDigits_len1 n h1]
    omega
  · rw [natDigits_len2 n (by omega) h]

/-- Numerals of numbers up to 9999 have at most four characters. -/
theorem natDigits_len_le4 (n : Nat) (h : n ≤ 9999) : (natDigits n).length ≤ 4 := by
  by_cases h1 : n ≤ 99
  · have := natDigits_len_le2 n h1
    omega
  · by_cases h2 : n ≤ 999
    · rw [natDigits_len3 n (by omega) h2]
      omega
    · rw [natDigits_len4 n (by omega) h]

/-- All characters of a numeral are digits (stated over the fuelled form). -/
theorem natDigitsAux_digits : ∀ (f n : Nat), n ≤ f → ∀ c ∈ natDigitsAux f n, c.isDigit = true := by
  intro f
  induction f with
  | zero =>
    intro n h c hc
    have hn : n = 0 := by omega
    subst hn
    rw [List.mem_singleton.mp hc]
    decide
  | succ f ih =>
    intro n h c hc
    by_cases h10 : n < 10
    · rw [natDigitsAux_small _ n h10] at hc
      rw [List.mem_singleton.mp hc]
      exact digitChar_isDigit n h10
    · simp only [natDigitsAux, if_neg h10] at hc
      rcases List.mem_append.mp hc with hc | hc
      · exact ih (n / 10) (by omega) c hc
      · rw [List.mem_singleton.mp hc]
        exact digitChar_isDigit (n % 10) (by omega)

/-- All characters of a numeral are digits. -/
theorem natDigits_digits (n : Nat) : ∀ c ∈ natDigits n, c.isDigit = true :=
  natDigitsAux_digits n n (le_refl n)

/-- Zero-padding to width `k` yields exactly `k` characters when the input is
no longer than `k`. -/
theorem padZeros_length (k : Nat) (s : String) (h : s.data.length ≤ k) :
    (padZeros k s).data.length = k := by
  show (List.replicate (k - s.data.length) '0' ++ s.data).length = k
  rw [List.length_append, List.length_replicate]
  omega

/-- Zero-padding preserves all-digit strings. -/
theorem padZeros_digits (k : Nat) (s : String) (h : ∀ c ∈ s.data, c.isDigit = true) :
    ∀ c ∈ (padZeros k s).data, c.isDigit = true := by
  intro c hc
  have hc2 : c ∈ List.replicate (k - s.data.length) '0' ++ s.data := hc
  rcases List.mem_append.mp hc2 with hm | hm
  · rw [List.eq_of_mem_replicate hm]
    decide
  · exact h c hm

/-- `isoDate` renders a `YYYY-MM-DD` shape for components inside the ranges
a civil date can take on a four-digit year. -/
theorem isoDate_shape (y m d : Int) (hy0 : 0 ≤ y) (hy : y ≤ 9999)
    (hm0 : 0 ≤ m) (hm : m ≤ 99) (hd0 : 0 ≤ d) (hd : d ≤ 99) :
    ∃ a b c : String, isoDate (y, m, d) = a ++ "-" ++ b ++ "-" ++ c ∧
      a.data.length = 4 ∧ b.data.length = 2 ∧ c.data.length = 2 ∧
      ∀ ch ∈ a.data ++ b.data ++ c.data, ch.isDigit = true := by
  refine ⟨pad4 y.toNat, pad2 m.toNat, pad2 d.toNat, rfl,
    padZeros_length 4 _ (natDigits_len_le4 _ (by omega)),
    padZeros_length 2 _ (natDigits_len_le2 _ (by omega)),
    padZeros_length 2 _ (natDigits_len_le2 _ (by omega)), ?_⟩
  intro ch hch
  rcases List.mem_append.mp hch with hch | hch
  · rcases List.mem_append.mp hch with hch | hch
    · exact padZeros_digits 4 _ (natDigits_digits _) ch hch
    · exact padZeros_digits 2 _ (natDigits_digits _) ch hch
  · exact padZeros_digits 2 _ (natDigits_digits _) ch hch

/-- Day arithmetic is linear in the day argument, as in ECMAScript
`MakeDay`. -/
theorem daysFromCivil_shift (y m d i : Int) :
    daysFromCivil y m (d - i) = daysFromCivil y m d - i := by
  unfold daysFromCivil
  ring

/-- A day window with no matching visitor counts zero. -/
theorem dayWindowCount_eq_zero (store : List Visitor) (dn : Int)
    (h : ∀ v ∈ store, inRange (dn * 86400) (dn * 86400 + 86399) v.checkin_time = false) :
    dayWindowCount store dn = 0 := by
  unfold dayWindowCount
  rw [List.filter_eq_nil_iff.mpr fun v hv => by simp [h v hv]]
  rfl

/-- A month window with no matching visitor counts zero. -/
theorem monthWindowCount_eq_zero (store : List Visitor) (lm : Int)
    (h : ∀ v ∈ store,
      inRange (daysFromCivil (lm.fdiv 12) (lm.emod 12 + 1) 1 * 86400)
        (daysFromCivil (lm.fdiv 12) (lm.emod 12 + 2) 0 * 86400 + 86399)
        v.checkin_time = false) :
    monthWindowCount store lm = 0 := by
  unfold monthWindowCount
  rw [List.filter_eq_nil_iff.mpr fun v hv => by simp [h v hv]]
  rfl

/-- The daily report is the range of consecutive day numbers ending at the
current day, each rendered with its civil date and its inclusive-window
count. -/
theorem dailyCounts_eq (store : List Visitor) (daysQ : Option Int) (y m d : Int) :
    dailyCounts store daysQ y m d = (List.range (clampDays daysQ).toNat).map fun (j : Nat) =>
      { date := isoDate (civilFromDays
          (daysFromCivil y (m + 1) d - clampDays daysQ + 1 + (j : Int)))
        count := dayWindowCount store
          (daysFromCivil y (m + 1) d - clampDays daysQ + 1 + (j : Int)) } := by
  unfold dailyCounts
  apply List.map_congr_left
  intro j hj
  have harg : daysFromCivil y (m + 1) (d - (clampDays daysQ - 1 - (j : Int))) =
      daysFromCivil y (m + 1) d - clampDays daysQ + 1 + (j : Int) := by
    rw [daysFromCivil_shift]
    ring
  rw [harg]

/-- Claim C8: the requested day window is clamped into `[1, 30]`; the report
has exactly that many entries, one per consecutive calendar day ending today,
oldest first; each date is the ISO `YYYY-MM-DD` rendering of its civil date;
and a day with no matching visitor still contributes an entry whose count is
zero. -/
theorem daily_counts_spec (store : List Visitor) (daysQ : Option Int) (y m d : Int) :
    1 ≤ clampDays daysQ ∧ clampDays daysQ ≤ 30 ∧
    (dailyCounts store daysQ y m d).length = (clampDays daysQ).toNat ∧
    (dailyCounts store daysQ y m d = (List.range (clampDays daysQ).toNat).map fun (j : Nat) =>
      { date := isoDate (civilFromDays
          (daysFromCivil y (m + 1) d - clampDays daysQ + 1 + (j : Int)))
        count := dayWindowCount store
          (daysFromCivil y (m + 1) d - clampDays daysQ + 1 + (j : Int)) }) ∧
    (∀ dn : Int,
      (∀ v ∈ store, inRange (dn * 86400) (dn * 86400 + 86399) v.checkin_time = false) →
      dayWindowCount store dn = 0) ∧
    (∀ Y M D : Int, 0 ≤ Y → Y ≤ 9999 → 0 ≤ M → M ≤ 99 → 0 ≤ D → D ≤ 99 →
      ∃ a b c : String, isoDate (Y, M, D) = a ++ "-" ++ b ++ "-" ++ c ∧
        a.data.length = 4 ∧ b.data.length = 2 ∧ c.data.length = 2 ∧
        ∀ ch ∈ a.data ++ b.data ++ c.data, ch.isDigit = true) := by
  refine ⟨by unfold clampDays; omega, by unfold clampDays; omega, ?_,
    dailyCounts_eq store daysQ y m d, dayWindowCount_eq_zero store, isoDate_shape⟩
  unfold dailyCounts
  rw [List.length_map, List.length_range]

/-- Witness for `daily_counts_spec`: a requested window of 100 days is clamped
to 30 entries, and the ISO rendering of 2023-11-15 has the `YYYY-MM-DD`
shape. -/
theorem daily_counts_spec_witness :
    (dailyCounts [] (some 100) 2023 10 15).length = 30 ∧
    ∃ a b c : String, isoDate (2023, 11, 15) = a ++ "-" ++ b ++ "-" ++ c ∧
      a.data.length = 4 ∧ b.data.length = 2 ∧ c.data.length = 2 ∧
      ∀ ch ∈ a.data ++ b.data ++ c.data, ch.isDigit = true := by
  have h := daily_counts_spec [] (some 100) 2023 10 15
  refine ⟨?_, h.2.2.2.2.2 2023 11 15 (by norm_num) (by norm_num) (by norm_num) (by norm_num)
    (by norm_num) (by norm_num)⟩
  rw [h.2.2.1]
  decide

/-- Prepending a common prefix preserves strict lexicographic order. -/
theorem lex_append_left (p : List Char) {l1 l2 : List Char}
    (h : List.Lex (· < ·) l1 l2) : List.Lex (· < ·) (p ++ l1) (p ++ l2) := by
  induction p with
  | nil => exact h
  | cons c p ih => exact List.Lex.cons ih

/-- Strict lexicographic order between equal-length lists survives appending
arbitrary suffixes. -/
theorem lex_append_both : ∀ {l1 l2 : List Char}, List.Lex (· < ·) l1 l2 →
    l1.length = l2.length → ∀ s t : List Char, List.Lex (· < ·) (l1 ++ s) (l2 ++ t) := by
  intro l1 l2 h
  induction h with
  | nil =>
    intro hlen
    simp at hlen
  | cons h ih =>
    intro hlen s t
    exact List.Lex.cons (ih (by simpa using hlen) s t)
  | rel hab =>
    intro _ s t
    exact List.Lex.rel hab

/-- Numeral order for one-digit numbers. -/
theorem natDigits_lex1 (a b : Nat) (hab : a < b) (hb : b ≤ 9) :
    List.Lex (· < ·) (natDigits a) (natDigits b) := by
  rw [natDigits_lt10 a (by omega), natDigits_lt10 b (by omega)]
  exact List.Lex.rel (digitChar_lt a (by omega) b (by omega) hab)

/-- Numeral order for two-digit numbers. -/
theorem natDigits_lex2 (a b : Nat) (ha : 10 ≤ a) (hab : a < b) (hb : b ≤ 99) :
    List.Lex (· < ·) (natDigits a) (natDigits b) := by
  rw [natDigits_ge10 a ha, natDigits_ge10 b (by omega)]
  rcases Nat.lt_or_ge (a / 10) (b / 10) with hq | hq
  · exact lex_append_both (natDigits_lex1 _ _ hq (by omega))
      (by rw [natDigits_len1 _ (by omega), natDigits_len1 _ (by omega)]) _ _
  · have hqe : a / 10 = b / 10 := by omega
    rw [hqe]
    exact lex_append_left _ (List.Lex.rel (digitChar_lt _ (by omega) _ (by omega) (by omega)))

/-- Numeral order for three-digit numbers. -/
theorem natDigits_lex3 (a b : Nat) (ha : 100 ≤ a) (hab : a < b) (hb : b ≤ 999) :
    List.Lex (· < ·) (natDigits a) (natDigits b) := by
  rw [natDigits_ge10 a (by omega), natDigits_ge10 b (by omega)]
  rcases Nat.lt_or_ge (a / 10) (b / 10) with hq | hq
  · exact lex_append_both (natDigits_lex2 _ _ (by omega) hq (by omega))
      (by rw [natDigits_len2 _ (by omega) (by omega), natDigits_len2 _ (by omega) (by omega)]) _ _
  · have hqe : a / 10 = b / 10 := by omega
    rw [hqe]
    exact lex_append_left _ (List.Lex.rel (digitChar_lt _ (by omega) _ (by omega) (by omega)))

/-- Numeral order for four-digit numbers. -/
theorem natDigits_lex4 (a b : Nat) (ha : 1000 ≤ a) (hab : a < b) (hb : b ≤ 9999) :
    List.Lex (· < ·) (natDigits a) (natDigits b) := by
  rw [natDigits_ge10 a (by omega), natDigits_ge10 b (by omega)]
  rcases Nat.lt_or_ge (a / 10) (b / 10) with hq | hq
  · exact lex_append_both (natDigits_lex3 _ _ (by omega) hq (by omega))
      (by rw [natDigits_len3 _ (by omega) (by omega), natDigits_len3 _ (by omega) (by omega)]) _ _
  · have hqe : a / 10 = b / 10 := by omega
    rw [hqe]
    exact lex_append_left _ (List.Lex.rel (digitChar_lt _ (by omega) _ (by omega) (by omega)))

/-- The zero-padded two-digit month numerals are ordered like the months. -/
theorem pad2_lex : ∀ a, a ≤ 12 → ∀ b, b ≤ 12 → a < b →
    List.Lex (· < ·) (pad2 a).data (pad2 b).data := by decide

/-- Chronological order of linear month counts gives lexicographic order of
their `YYYY-MM` labels, for four-digit years. -/
theorem labelN_lt (k1 k2 : Nat) (h : k1 < k2) (hlo : 1000 ≤ k1 / 12)
    (hhi : k2 / 12 ≤ 9999) : labelN k1 < labelN k2 := by
  have hq : k1 / 12 ≤ k2 / 12 := Nat.div_le_div_right (le_of_lt h)
  have hdata : ∀ k : Nat,
      (labelN k).data = (natDigits (k / 12) ++ ['-']) ++ (pad2 (k % 12 + 1)).data := by
    intro k
    rfl
  rw [String.lt_iff_toList_lt]
  show List.Lex (· < ·) (labelN k1).data (labelN k2).data
  rw [hdata k1, hdata k2]
  rcases Nat.lt_or_ge (k1 / 12) (k2 / 12) with hqlt | hqge
  · refine lex_append_both (lex_append_both (natDigits_lex4 _ _ hlo hqlt hhi) ?_ _ _) ?_ _ _
    · rw [natDigits_len4 _ hlo (by omega), natDigits_len4 _ (by omega) hhi]
    · rw [List.length_append, List.length_append,
        natDigits_len4 _ hlo (by omega), natDigits_len4 _ (by omega) hhi]
  · have hqe : k1 / 12 = k2 / 12 := le_antisymm hq hqge
    rw [hqe]
    exact lex_append_left _ (pad2_lex _ (by omega) _ (by omega) (by omega))

/-- The server-side month label of a non-negative linear month count is its
`labelN` rendering. -/
theorem monthLabel_eq_labelN (lm : Int) (h : 0 ≤ lm) :
    natStr (lm.fdiv 12).toNat ++ "-" ++ pad2 (lm.emod 12 + 1).toNat = labelN lm.toNat := by
  have h1 : (lm.fdiv 12).toNat = lm.toNat / 12 := by
    rw [Int.fdiv_eq_ediv _ (by norm_num)]
    omega
  have h2 : (lm.emod 12 + 1).toNat = lm.toNat % 12 + 1 := by
    show (lm % 12 + 1).toNat = lm.toNat % 12 + 1
    omega
  rw [h1, h2]
  rfl

/-- The monthly report is the range of consecutive linear month counts ending
at the current month, each rendered with its label and its inclusive-window
count. -/
theorem monthlyCounts_eq (store : List Visitor) (monthsQ : Option Int) (y m : Int) :
    monthlyCounts store monthsQ y m = (List.range (clampMonths monthsQ).toNat).map
      fun (j : Nat) =>
        { month := natStr ((12 * y + m - clampMonths monthsQ + 1 + (j : Int)).fdiv 12).toNat ++
            "-" ++ pad2 ((12 * y + m - clampMonths monthsQ + 1 + (j : Int)).emod 12 + 1).toNat
          count := monthWindowCount store (12 * y + m - clampMonths monthsQ + 1 + (j : Int)) } := by
  unfold monthlyCounts
  apply List.map_congr_left
  intro j hj
  have harg : 12 * y + (m - (clampMonths monthsQ - 1 - (j : Int))) =
      12 * y + m - clampMonths monthsQ + 1 + (j : Int) := by ring
  rw [harg]

/-- Claim C9: the requested month window is clamped into `[1, 24]`; the report
has exactly that many entries, one per consecutive calendar month ending with
the current month, oldest first; the `YYYY-MM` labels are strictly increasing;
and a month with no matching visitor still contributes an entry whose count is
zero. -/
theorem monthly_counts_spec (store : List Visitor) (monthsQ : Option Int) (y m : Int)
    (hm0 : 0 ≤ m) (hm11 : m ≤ 11) (hy1 : 1002 ≤ y) (hy2 : y ≤ 9999) :
    1 ≤ clampMonths monthsQ ∧ clampMonths monthsQ ≤ 24 ∧
    (monthlyCounts store monthsQ y m).length = (clampMonths monthsQ).toNat ∧
    (monthlyCounts store monthsQ y m = (List.range (clampMonths monthsQ).toNat).map
      fun (j : Nat) =>
        { month := natStr ((12 * y + m - clampMonths monthsQ + 1 + (j : Int)).fdiv 12).toNat ++
            "-" ++ pad2 ((12 * y + m - clampMonths monthsQ + 1 + (j : Int)).emod 12 + 1).toNat
          count := monthWindowCount store (12 * y + m - clampMonths monthsQ + 1 + (j : Int)) }) ∧
    List.Pairwise (fun e1 e2 : MonthEntry => e1.month < e2.month)
      (monthlyCounts store monthsQ y m) ∧
    (∀ lm : Int,
      (∀ v ∈ store,
        inRange (daysFromCivil (lm.fdiv 12) (lm.emod 12 + 1) 1 * 86400)
          (daysFromCivil (lm.fdiv 12) (lm.emod 12 + 2) 0 * 86400 + 86399)
          v.checkin_time = false) →
      monthWindowCount store lm = 0) := by
  have hc1 : 1 ≤ clampMonths monthsQ := by unfold clampMonths; omega
  have hc24 : clampMonths monthsQ ≤ 24 := by unfold clampMonths; omega
  refine ⟨hc1, hc24, ?_, monthlyCounts_eq store monthsQ y m, ?_,
    monthWindowCount_eq_zero store⟩
  · unfold monthlyCounts
    rw [List.length_map, List.length_range]
  · rw [monthlyCounts_eq store monthsQ y m, List.pairwise_iff_getElem]
    intro i j hi hj hij
    rw [List.length_map, List.length_range] at hi hj
    simp only [List.getElem_map, List.getElem_range]
    have h0i : (0 : Int) ≤ 12 * y + m - clampMonths monthsQ + 1 + (i : Int) := by omega
    have h0j : (0 : Int) ≤ 12 * y + m - clampMonths monthsQ + 1 + (j : Int) := by omega
    show natStr _ ++ "-" ++ pad2 _ < natStr _ ++ "-" ++ pad2 _
    rw [monthLabel_eq_labelN _ h0i, monthLabel_eq_labelN _ h0j]
    apply labelN_lt
    · omega
    · have h12 : (12 : Int) * 1000 ≤ 12 * y + m - clampMonths monthsQ + 1 + (i : Int) := by
        omega
      omega
    · have hub : 12 * y + m - clampMonths monthsQ + 1 + (j : Int) ≤ 12 * 9999 + 11 := by
        omega
      omega

/-- Witness for `monthly_counts_spec`: a requested window of 100 months ending
December 2024 is clamped to 24 entries whose labels strictly increase. -/
theorem monthly_counts_spec_witness :
    (monthlyCounts [] (some 100) 2024 11).length = 24 ∧
    List.Pairwise (fun e1 e2 : MonthEntry => e1.month < e2.month)
      (monthlyCounts [] (some 100) 2024 11) := by
  have h := monthly_counts_spec [] (some 100) 2024 11 (by norm_num) (by norm_num)
    (by norm_num) (by norm_num)
  refine ⟨?_, h.2.2.2.2.1⟩
  rw [h.2.2.1]
  decide

/-- Claim C10: a create request whose bearer token fails verification is
handled exactly like a request with no token: the error is swallowed, the
visitor is created and persisted, and `created_by` is null. -/
theorem invalid_token_ignored (req : CreateReq) (photoUrl : Option String)
    (now : Int) (newId : Nat) :
    checkIn req (some TokenStatus.invalid) photoUrl now newId =
      checkIn req none photoUrl now newId ∧
    (req.name.getD "" ≠ "" →
      ∃ v, checkIn req (some TokenStatus.invalid) photoUrl now newId = .ok v ∧
        v.created_by = none ∧
        ∀ store, createVisitor store req (some TokenStatus.invalid) photoUrl now newId =
          (store ++ [v], .ok v)) := by
  refine ⟨rfl, fun h => ?_⟩
  unfold checkIn
  rw [if_neg h]
  refine ⟨_, rfl, rfl, fun store => ?_⟩
  unfold createVisitor checkIn
  rw [if_neg h]

/-- Witness for `invalid_token_ignored` at a concrete request. -/
theorem invalid_token_ignored_witness :
    checkIn { name := some "E" } (some TokenStatus.invalid) none 100 0 =
      checkIn { name := some "E" } none none 100 0 ∧
    (checkIn { name := some "E" } (some TokenStatus.invalid) none 100 0).toOption.map
      Visitor.created_by = some none := by
  refine ⟨(invalid_token_ignored { name := some "E" } none 100 0).1, ?_⟩
  obtain ⟨v, hv, hcb, _⟩ := (invalid_token_ignored { name := some "E" } none 100 0).2 (by decide)
  rw [hv]
  show some v.created_by = some none
  rw [hcb]

end VMS
